import Mathlib

/-!
Verification of the autoupdate-server release catalog and update resolver.

This file is a shallow embedding of the Go sources:
- the semver library calls used by the server (`semver.Version`, `Parse`,
  `GT`, `LTE`, `EQ`, `String`) are modelled by `Version` below;
- the asset-name classifier (`updateAssetRe`, `getAssetInfo`,
  `isUpdateAsset`);
- the release fetcher (`getReleases`), the catalog (`updateAssetsMap`,
  `latestAssetsMap`, `pushAsset`, `UpdateAssetsMap`, `getProductUpdate`,
  `lookupAssetWithChecksum`) and the resolver (`CheckForUpdate`).

External effects (GitHub API pages, file download, hashing, RSA signing,
bsdiff patch generation) are passed in explicitly: the upstream feed is a
list of pages and the file-system/crypto side is an `Oracles` record of
fallible functions, so that every claim ranges over all possible behaviours
of those collaborators.
-/

namespace AutoupdateServer

/-- Model of `semver.Version` (github.com/blang/semver) restricted to the
`major.minor.patch` core used by this server.  Pre-release and build
metadata never occur in the claims and are not modelled. -/
structure Version where
  major : Nat
  minor : Nat
  patch : Nat
deriving DecidableEq, Repr

/-- The zero value `semver.Version{}`, called `emptyVersion` in the source. -/
def emptyVersion : Version := ⟨0, 0, 0⟩

/-- Strict semver order (lexicographic on major, minor, patch), the model of
`semver.Version.LT`. -/
def Version.ltB (a b : Version) : Bool :=
  decide (a.major < b.major ∨ (a.major = b.major ∧
    (a.minor < b.minor ∨ (a.minor = b.minor ∧ a.patch < b.patch))))

/-- Model of `semver.Version.GT`. -/
def Version.GT (a b : Version) : Bool := Version.ltB b a

/-- Model of `semver.Version.LTE`. -/
def Version.LTE (a b : Version) : Bool := !Version.ltB b a

/-- Model of `semver.Version.EQ`. -/
def Version.EQ (a b : Version) : Bool := a == b

/-- Parse a decimal numeral the way `semver.Parse` accepts version fields:
non-empty, all digits, no leading zero (except `0` itself). -/
def parseNumericField (s : List Char) : Option Nat :=
  if s = [] then none
  else if !s.all Char.isDigit then none
  else if s.length > 1 ∧ s.headI = '0' then none
  else some (s.foldl (fun n c => n * 10 + (c.toNat - 48)) 0)

/-- Split a character list on `.`. -/
def splitDots (s : List Char) : List (List Char) :=
  match s with
  | [] => [[]]
  | c :: rest =>
    let r := splitDots rest
    if c = '.' then [] :: r
    else
      match r with
      | [] => [[c]]
      | g :: gs => (c :: g) :: gs

/-- Model of `semver.Parse`: a version string is `major.minor.patch` with
three numeric fields. -/
def Version.parse (s : String) : Option Version :=
  match splitDots s.data with
  | [a, b, c] =>
    match parseNumericField a, parseNumericField b, parseNumericField c with
    | some M, some m, some p => some ⟨M, m, p⟩
    | _, _, _ => none
  | _ => none

/-- Render a `Nat` in decimal (least-significant digit first). -/
def natDigitsRev (n : Nat) : List Char :=
  if h : n < 10 then [Nat.digitChar n]
  else
    Nat.digitChar (n % 10) :: natDigitsRev (n / 10)
decreasing_by
  exact Nat.div_lt_self (by omega) (by omega)

/-- Decimal rendering of a `Nat`. -/
def natToString (n : Nat) : String := ⟨(natDigitsRev n).reverse⟩

/-- Model of `semver.Version.String`: `major.minor.patch`. -/
def Version.toString (v : Version) : String :=
  natToString v.major ++ "." ++ natToString v.minor ++ "." ++ natToString v.patch

/-- Go constant block `OS` (source lines 33-41). -/
def OS.Windows : String := "windows"

/-- Go constant `OS.Linux`. -/
def OS.Linux : String := "linux"

/-- Go constant `OS.Darwin`. -/
def OS.Darwin : String := "darwin"

/-- Go constant block `Arch` (source lines 22-30): `Arch.X64`. -/
def Arch.X64 : String := "amd64"

/-- Go constant `Arch.X86`. -/
def Arch.X86 : String := "386"

/-- Go constant `Arch.ARM`. -/
def Arch.ARM : String := "arm"

/-- The OS alternation of `updateAssetRe`, in the order it is written:
`(darwin|windows|linux)`. -/
def osAlternatives : List String := ["darwin", "windows", "linux"]

/-- The architecture alternation of `updateAssetRe`: `(arm|386|amd64)`. -/
def archAlternatives : List String := ["arm", "386", "amd64"]

/-- `AssetInfo` struct: OS and Arch information of an asset. -/
structure AssetInfo where
  OS : String
  Arch : String
deriving DecidableEq, Repr

/-- Match a regexp alternation of literal words against the head of `s`,
returning the word matched and the remaining characters.  The words of both
alternations in `updateAssetRe` are pairwise non-prefixes of one another, so
first-match semantics here coincides with the regexp engine's. -/
def matchAlternation (cands : List String) (s : List Char) :
    Option (String × List Char) :=
  match cands with
  | [] => none
  | c :: rest =>
    if c.data.isPrefixOf s then some (c, s.drop c.data.length)
    else matchAlternation rest s

/-- Submatch extraction for
`updateAssetRe = ^update_(darwin|windows|linux)_(arm|386|amd64)\.?.*$`:
the string must start with `update_`, then an OS word, `_`, an arch word,
and any tail matching `\.?.*` — that is, any characters not containing a
newline (`.` in Go's RE2 does not match `\n`, and `$` anchors at end of
text).  Returns the two capture groups. -/
def updateAssetSubmatch (s : String) : Option AssetInfo :=
  if "update_".data.isPrefixOf s.data then
    match matchAlternation osAlternatives (s.data.drop "update_".data.length) with
    | none => none
    | some (os, rest1) =>
      if "_".data.isPrefixOf rest1 then
        match matchAlternation archAlternatives (rest1.drop "_".data.length) with
        | none => none
        | some (arch, rest2) =>
          if rest2.all (fun c => c ≠ '\n') then some ⟨os, arch⟩ else none
      else none
  else none

/-- `getAssetInfo` (source lines 384-400): run the regexp; on a match,
check the captured OS and Arch against the closed sets and build an
`AssetInfo`, otherwise report `Could not find asset info.`. -/
def getAssetInfo (s : String) : Except String AssetInfo :=
  match updateAssetSubmatch s with
  | some info =>
    if info.OS ≠ OS.Windows ∧ info.OS ≠ OS.Linux ∧ info.OS ≠ OS.Darwin then
      Except.error ("Unknown OS: \"" ++ info.OS ++ "\".")
    else if info.Arch ≠ Arch.X64 ∧ info.Arch ≠ Arch.X86 ∧ info.Arch ≠ Arch.ARM then
      Except.error ("Unknown architecture \"" ++ info.Arch ++ "\".")
    else
      Except.ok info
  | none => Except.error "Could not find asset info."

/-- `isUpdateAsset` (source lines 402-404): does the filename match
`updateAssetRe`? -/
def isUpdateAsset (s : String) : Bool := (updateAssetSubmatch s).isSome

/-- `Asset` struct (source lines 54-63), with the embedded `AssetInfo`
flattened to its two fields `OS` and `Arch`. -/
structure Asset where
  id : Int
  v : Version
  Name : String
  URL : String
  LocalFile : String
  Checksum : String
  Signature : String
  OS : String
  Arch : String
deriving DecidableEq, Repr

/-- `Release` struct (source lines 44-49). -/
structure Release where
  id : Int
  URL : String
  version : Version
  Assets : List Asset
deriving DecidableEq, Repr

/-- One asset record of the GitHub API response
(`github.ReleaseAsset`: `ID`, `Name`, `BrowserDownloadURL`). -/
structure RawAsset where
  ID : Int
  Name : String
  BrowserDownloadURL : String
deriving DecidableEq, Repr

/-- One release record of the GitHub API response
(`github.RepositoryRelease`: `ID`, `TagName`, `ZipballURL`, `Assets`). -/
structure RawRelease where
  ID : Int
  TagName : String
  ZipballURL : String
  Assets : List RawAsset
deriving DecidableEq, Repr

/-- One page of `client.Repositories.ListReleases`: either a list of
releases or a network error. -/
inductive GhPage where
  | ok (rels : List RawRelease)
  | err (msg : String)
deriving DecidableEq, Repr

/-- The upstream feed: page `i` (1-based) of `ListReleases` is entry `i-1`;
past the end of the list the feed returns an empty page, which is how the
Go loop terminates. -/
def Feed := List GhPage

/-- The per-page body of `getReleases` (source lines 131-155): allocate a
fresh slice, then for each release of the page parse the tag as semver
(skipping the release if the parse fails) and collect its assets with only
`id`, `Name` and `URL` populated — every other `Asset` field keeps its Go
zero value. -/
def parsePage (rels : List RawRelease) : List Release :=
  rels.filterMap (fun r =>
    match Version.parse r.TagName with
    | none => none
    | some v =>
      some { id := r.ID, URL := r.ZipballURL, version := v,
             Assets := r.Assets.map (fun a =>
               { id := a.ID, v := emptyVersion, Name := a.Name,
                 URL := a.BrowserDownloadURL, LocalFile := "", Checksum := "",
                 Signature := "", OS := "", Arch := "" }) })

/-- The paging loop of `getReleases` (source lines 118-156).  Faithful to
the Go code, `releases = make([]Release, 0, len(rels))` runs inside the
loop, so the accumulator is REPLACED by each non-empty page rather than
appended to: `releases` holds only the releases of the page processed last
when an empty page (here: the end of the feed) breaks the loop. -/
def getReleasesLoop : Feed → List Release → Except String (List Release)
  | [], releases => Except.ok releases
  | page :: restPages, releases =>
    match page with
    | GhPage.err e => Except.error e
    | GhPage.ok rels =>
      if rels.isEmpty then Except.ok releases
      else getReleasesLoop restPages (parsePage rels)

/-- Insertion sort by descending release id, the model of
`sort.Sort(sort.Reverse(releasesByID(releases)))` (source line 158). -/
def insertByIdDesc (r : Release) : List Release → List Release
  | [] => [r]
  | x :: xs => if x.id ≤ r.id then r :: x :: xs else x :: insertByIdDesc r xs

/-- Sort releases by descending id. -/
def sortByIdDesc (l : List Release) : List Release :=
  l.foldr insertByIdDesc []

/-- `getReleases` (source lines 115-161): run the paging loop from page 1
with an empty accumulator, then sort what survived by descending id. -/
def getReleases (feed : Feed) : Except String (List Release) :=
  match getReleasesLoop feed [] with
  | Except.error e => Except.error e
  | Except.ok releases => Except.ok (sortByIdDesc releases)

/-- The release-catalog state of `ReleaseManager`: `updateAssetsMap` is the
triple-nested map `os → arch → version → *Asset` and `latestAssetsMap` the
double map `os → arch → *Asset`.  A missing key returns Go's `nil`, modelled
by `none`; the innermost version-keyed map is an insertion-ordered
association list (Go's `version.String()` key is injective on semver values,
so it is modelled by the `Version` value itself).  `NewReleaseManager`
always allocates the two top-level maps, so they are modelled as total
functions. -/
structure Catalog where
  updateAssetsMap : String → Option (String → Option (List (Version × Asset)))
  latestAssetsMap : String → Option (String → Option Asset)

/-- The catalog as built by `NewReleaseManager` (source lines 97-112): both
maps allocated and empty. -/
def NewReleaseManager : Catalog :=
  { updateAssetsMap := fun _ => none, latestAssetsMap := fun _ => none }

/-- `Patch` struct: the generated patch file. -/
structure Patch where
  File : String
deriving DecidableEq, Repr

/-- The fallible external collaborators of the catalog and resolver:
`downloadAsset(url, assetDir)`, `checksumForFile(localfile)`,
`signatureForFile(localfile)` (the private key is fixed inside), and
`generatePatch(currentURL, updateURL, assetDir, patchDir)`.  Their
definitions are not part of the catalog logic; each claim quantifies over
their behaviour. -/
structure Oracles where
  downloadAsset : String → String → Except String String
  checksumForFile : String → Except String String
  signatureForFile : String → Except String String
  generatePatch : String → String → String → String → Except String Patch

/-- Store a key in an association list: replace the entry with that key if
present (Go map assignment), otherwise append (new keys iterate after old
ones in this model). -/
def setA (l : List (Version × Asset)) (k : Version) (a : Asset) :
    List (Version × Asset) :=
  match l with
  | [] => [(k, a)]
  | (k', a') :: rest => if k' = k then (k, a) :: rest else (k', a') :: setA rest k a

/-- The map-updating tail of `pushAsset` (source lines 270-292), entered
after download, checksum and signature succeeded: create the missing layers
of `updateAssetsMap`, store the asset under its version key, then set
`latestAssetsMap[os][arch]` to the asset if the slot was empty or the
asset's version is strictly greater than the current latest. -/
def storeAsset (g : Catalog) (os arch : String) (version : Version)
    (asset : Asset) : Catalog :=
  let archMapU := (g.updateAssetsMap os).getD (fun _ => none)
  let verList := (archMapU arch).getD []
  let verListNew := setA verList version asset
  let archMapU2 : String → Option (List (Version × Asset)) :=
    fun a2 => if a2 = arch then some verListNew else archMapU a2
  let updMap2 : String → Option (String → Option (List (Version × Asset))) :=
    fun o2 => if o2 = os then some archMapU2 else g.updateAssetsMap o2
  let archMapL := (g.latestAssetsMap os).getD (fun _ => none)
  let newLatest :=
    match archMapL arch with
    | none => asset
    | some cur => if Version.GT asset.v cur.v then asset else cur
  let archMapL2 : String → Option Asset :=
    fun a2 => if a2 = arch then some newLatest else archMapL a2
  let latMap2 : String → Option (String → Option Asset) :=
    fun o2 => if o2 = os then some archMapL2 else g.latestAssetsMap o2
  { updateAssetsMap := updMap2, latestAssetsMap := latMap2 }

/-- `pushAsset` (source lines 244-293): record OS and Arch on the asset,
reject the empty version, download the asset, compute its checksum, sign
it, then update both maps.  The maps are only touched after every fallible
step succeeded, so a failing push leaves the catalog unchanged.  (The Go
code computes `localfile` but never assigns `asset.LocalFile`.) -/
def pushAsset (o : Oracles) (assetDir : String) (g : Catalog)
    (os arch : String) (asset : Asset) : Except String Catalog :=
  let version := asset.v
  let asset1 := { asset with OS := os, Arch := arch }
  if Version.EQ version emptyVersion then Except.error "Missing asset version."
  else
    match o.downloadAsset asset1.URL assetDir with
    | Except.error e => Except.error e
    | Except.ok localfile =>
      match o.checksumForFile localfile with
      | Except.error e => Except.error e
      | Except.ok c =>
        let asset2 := { asset1 with Checksum := c }
        match o.signatureForFile localfile with
        | Except.error e => Except.error e
        | Except.ok sg =>
          let asset3 := { asset2 with Signature := sg }
          Except.ok (storeAsset g os arch version asset3)

/-- The inner asset loop of `UpdateAssetsMap` (source lines 177-194) for
one release: each asset whose name matches the update pattern is given the
release's version, classified, and pushed; classification and push errors
abort with a wrapped message, returning the catalog as mutated so far. -/
def processAssets (o : Oracles) (assetDir : String) (relVersion : Version) :
    List Asset → Catalog → Catalog × Option String
  | [], g => (g, none)
  | a :: rest, g =>
    if isUpdateAsset a.Name then
      let asset := { a with v := relVersion }
      match getAssetInfo asset.Name with
      | Except.error e => (g, some ("Could not get asset info: " ++ e))
      | Except.ok info =>
        match pushAsset o assetDir g info.OS info.Arch asset with
        | Except.error e => (g, some ("Could not push asset: " ++ e))
        | Except.ok g2 => processAssets o assetDir relVersion rest g2
    else processAssets o assetDir relVersion rest g

/-- The outer release loop of `UpdateAssetsMap` (source lines 175-195). -/
def processReleases (o : Oracles) (assetDir : String) :
    List Release → Catalog → Catalog × Option String
  | [], g => (g, none)
  | r :: rest, g =>
    match processAssets o assetDir r.version r.Assets g with
    | (g2, some e) => (g2, some e)
    | (g2, none) => processReleases o assetDir rest g2

/-- `UpdateAssetsMap` (source lines 165-198): fetch all releases (an error
aborts before the catalog is touched), then process every asset of every
release in descending-id order.  The pair returned is the catalog state
when the call returns together with the error, if any. -/
def UpdateAssetsMap (o : Oracles) (assetDir : String) (feed : Feed)
    (g : Catalog) : Catalog × Option String :=
  match getReleases feed with
  | Except.error e => (g, some e)
  | Except.ok rs => processReleases o assetDir rs g

/-- `getProductUpdate` (source lines 200-217): read
`latestAssetsMap[os][arch]`, distinguishing a missing OS from a missing
arch.  (The guard on the whole map being `nil` is unreachable:
`NewReleaseManager` always allocates it.) -/
def getProductUpdate (g : Catalog) (os arch : String) : Except String Asset :=
  match g.latestAssetsMap os with
  | none => Except.error "No such OS."
  | some archMap =>
    match archMap arch with
    | none => Except.error "No such Arch."
    | some a => Except.ok a

/-- `lookupAssetWithChecksum` (source lines 219-242): scan
`updateAssetsMap[os][arch]` for the first asset whose checksum matches.
Go iterates the map in unspecified order; this model iterates the
association list in insertion order. -/
def lookupAssetWithChecksum (g : Catalog) (os arch checksum : String) :
    Except String Asset :=
  match g.updateAssetsMap os with
  | none => Except.error "No such OS."
  | some archMap =>
    match archMap arch with
    | none => Except.error "No such Arch."
    | some l =>
      match l.find? (fun ka => ka.2.Checksum == checksum) with
      | some ka => Except.ok ka.2
      | none => Except.error "Could not find a matching checksum in assets list."

/-- `args.INITIATIVE_AUTO`. -/
def INITIATIVE_AUTO : String := "auto"

/-- `args.PATCHTYPE_BSDIFF`. -/
def PATCHTYPE_BSDIFF : String := "bsdiff"

/-- `args.PATCHTYPE_NONE` is the empty string. -/
def PATCHTYPE_NONE : String := ""

/-- `args.Params` (package `args`): the client query.  `Tags` is a nil-able
Go `map[string]string`, modelled as an optional association list. -/
structure Params where
  Version : Int
  AppVersion : String
  OS : String
  Arch : String
  Checksum : String
  Tags : Option (List (String × String))
deriving DecidableEq, Repr

/-- Go map read `tags[k]` on a non-nil map: the stored value, or the zero
value `""` when the key is absent. -/
def tagsGet (tags : List (String × String)) (k : String) : String :=
  match tags.find? (fun kv => kv.1 == k) with
  | some kv => kv.2
  | none => ""

/-- `args.Result` (package `args`): the response record.  `Initiative` and
`PatchType` are string-typed in the source and modelled as `String`. -/
structure Result where
  Initiative : String
  URL : String
  PatchURL : String
  PatchType : String
  Version : String
  Checksum : String
  Signature : String
deriving DecidableEq, Repr

/-- Modelled from the spec: the sentinel error variable
`ErrNoUpdateAvailable` is declared in a repository file not present under
`src/` (it is referenced by `CheckForUpdate` and compared against with
`err == ErrNoUpdateAvailable` by the HTTP handler).  Per spec §7 it is a
distinct sentinel value, observably different from every message error, so
resolver errors are modelled as an inductive with a dedicated constructor
for it. -/
inductive UpdateError where
  | errNoUpdateAvailable
  | msg (s : String)
deriving DecidableEq, Repr

/-- The three ways a `CheckForUpdate` call can come back: a runtime panic
(nil-pointer dereference), an error, or a `*args.Result`. -/
inductive CFUOutcome where
  | panic
  | failure (e : UpdateError)
  | success (r : Result)
deriving DecidableEq, Repr

/-- The in-place mutations `CheckForUpdate` performs on a non-nil `*Params`
before its first (reachable) return (source lines 300-317): coerce
`Version` up to 1, then, when `Tags` is non-nil, overwrite `OS` and `Arch`
with the non-empty values of `Tags["os"]` and `Tags["arch"]`. -/
def coerceParams (p : Params) : Params :=
  let p1 := if p.Version < 1 then { p with Version := 1 } else p
  match p1.Tags with
  | none => p1
  | some tags =>
    let p2 := if tagsGet tags "os" ≠ "" then { p1 with OS := tagsGet tags "os" } else p1
    if tagsGet tags "arch" ≠ "" then { p2 with Arch := tagsGet tags "arch" } else p2

/-- The body of `CheckForUpdate` after the parameter mutations (source
lines 319-381): validations, latest-asset lookup, the no-update sentinel,
current-asset lookup by checksum, and patch generation. -/
def checkForUpdateCore (g : Catalog) (o : Oracles) (assetDir patchDir : String)
    (p : Params) : CFUOutcome :=
  match Version.parse p.AppVersion with
  | none => CFUOutcome.failure (UpdateError.msg "Bad version string")
  | some appVersion =>
    if p.Checksum = "" then CFUOutcome.failure (UpdateError.msg "Checksum must not be nil")
    else if p.OS = "" then CFUOutcome.failure (UpdateError.msg "OS is required")
    else if p.Arch = "" then CFUOutcome.failure (UpdateError.msg "Arch is required")
    else
      match getProductUpdate g p.OS p.Arch with
      | Except.error e =>
        CFUOutcome.failure (UpdateError.msg ("Could not lookup for updates: " ++ e))
      | Except.ok update =>
        if Version.LTE update.v appVersion then
          CFUOutcome.failure UpdateError.errNoUpdateAvailable
        else
          match lookupAssetWithChecksum g p.OS p.Arch p.Checksum with
          | Except.error _ =>
            CFUOutcome.success
              { Initiative := INITIATIVE_AUTO, URL := update.URL, PatchURL := "",
                PatchType := PATCHTYPE_NONE, Version := Version.toString update.v,
                Checksum := update.Checksum, Signature := update.Signature }
          | Except.ok current =>
            match o.generatePatch current.URL update.URL assetDir patchDir with
            | Except.error _ =>
              CFUOutcome.failure (UpdateError.msg "Unable to generate patch")
            | Except.ok patch =>
              CFUOutcome.success
                { Initiative := INITIATIVE_AUTO, URL := update.URL,
                  PatchURL := patch.File, PatchType := PATCHTYPE_BSDIFF,
                  Version := Version.toString update.v,
                  Checksum := update.Checksum, Signature := update.Signature }

/-- `CheckForUpdate` (source lines 297-382).  The nil argument models a nil
`*args.Params`.  The first statement of the Go body, `if p.Version < 1`,
dereferences `p`, so a nil argument panics before the `p == nil` guard on
line 305 is ever reached (that guard is dead code for non-nil `p`, which is
why it does not appear in the non-nil branch).  For a non-nil `p` the
mutations of `coerceParams` all happen before the first reachable return;
the returned pair carries the caller-visible final `Params` alongside the
outcome. -/
def CheckForUpdate (g : Catalog) (o : Oracles) (assetDir patchDir : String)
    (p0 : Option Params) : Option Params × CFUOutcome :=
  match p0 with
  | none => (none, CFUOutcome.panic)
  | some p =>
    let p1 := coerceParams p
    (some p1, checkForUpdateCore g o assetDir patchDir p1)

/-- The entry of `latestAssetsMap[os][arch]`, `nil` when either layer is
missing. -/
def latestAt (g : Catalog) (os arch : String) : Option Asset :=
  match g.latestAssetsMap os with
  | none => none
  | some m => m arch

/-- The version-keyed map `updateAssetsMap[os][arch]`, `nil` when either
layer is missing. -/
def byVersionAt (g : Catalog) (os arch : String) : Option (List (Version × Asset)) :=
  match g.updateAssetsMap os with
  | none => none
  | some m => m arch

/-- Deterministic all-succeeding collaborators used by concrete runs:
downloading `url` yields the file `f-` ++ `url`, whose checksum is `c-` ++
file and signature `s-` ++ file, and patch generation names the patch after
both inputs. -/
def oracleOk : Oracles :=
  { downloadAsset := fun url _ => Except.ok ("f-" ++ url)
    checksumForFile := fun f => Except.ok ("c-" ++ f)
    signatureForFile := fun f => Except.ok ("s-" ++ f)
    generatePatch := fun cu up _ _ => Except.ok ⟨"patch-" ++ cu ++ "-" ++ up⟩ }

/-- Page 1 of the two-page feed used against `getReleases`: a release with
id 1 tagged `1.0.0`. -/
def rawRelA : RawRelease := ⟨1, "1.0.0", "z1", []⟩

/-- Page 2 of the two-page feed: a release with id 2 tagged `2.0.0`. -/
def rawRelB : RawRelease := ⟨2, "2.0.0", "z2", []⟩

/-- A feed of two non-empty pages followed by the implicit empty page. -/
def feedTwoPages : Feed := [GhPage.ok [rawRelA], GhPage.ok [rawRelB]]

/-- Collaborators where downloading the URL `u2` fails and everything else
succeeds. -/
def oracleFailU2 : Oracles :=
  { downloadAsset := fun url _ =>
      if url = "u2" then Except.error "download error" else Except.ok ("f-" ++ url)
    checksumForFile := fun f => Except.ok ("c-" ++ f)
    signatureForFile := fun f => Except.ok ("s-" ++ f)
    generatePatch := fun _ _ _ _ => Except.error "no patch" }

/-- A feed with one release carrying two update assets; pushing the second
one fails under `oracleFailU2`. -/
def feedTwoAssets : Feed :=
  [GhPage.ok [⟨1, "1.0.0", "z",
    [⟨10, "update_linux_amd64", "u1"⟩, ⟨11, "update_linux_386", "u2"⟩]⟩]]

/-- A feed whose single page fails with a network error. -/
def feedNetworkError : Feed := [GhPage.err "network down"]

/-- A feed with one release carrying two assets that both classify as
`(linux, amd64)` at the same version `1.0.0` (both names match
`updateAssetRe`). -/
def feedSameVersionTwice : Feed :=
  [GhPage.ok [⟨1, "1.0.0", "z",
    [⟨10, "update_linux_amd64", "uA"⟩, ⟨11, "update_linux_amd64.bin", "uB"⟩]⟩]]

/-- Collaborators under which the files downloaded from `u1` and `u2` hash
to the same checksum `CC` while `u3` hashes to `DD`. -/
def oracleSharedChecksum : Oracles :=
  { downloadAsset := fun url _ => Except.ok ("f-" ++ url)
    checksumForFile := fun f => if f = "f-u3" then Except.ok "DD" else Except.ok "CC"
    signatureForFile := fun f => Except.ok ("s-" ++ f)
    generatePatch := fun _ _ _ _ => Except.error "no patch" }

/-- Three releases whose upstream ids run opposite to their versions (the
upstream feed was edited retroactively), each with one `linux/amd64` update
asset.  Processing order is by descending id: `1.0.0`, then `1.1.0`, then
`1.2.0`. -/
def feedRetroIds : Feed :=
  [GhPage.ok [⟨1, "1.2.0", "z", [⟨30, "update_linux_amd64", "u3"⟩]⟩,
              ⟨2, "1.1.0", "z", [⟨20, "update_linux_amd64", "u2"⟩]⟩,
              ⟨3, "1.0.0", "z", [⟨10, "update_linux_amd64", "u1"⟩]⟩]]

/-- The catalog `feedRetroIds` builds under `oracleSharedChecksum`: versions
`1.0.0` and `1.1.0` share the checksum `CC`, the latest is `1.2.0`. -/
def catalogRetro : Catalog :=
  (UpdateAssetsMap oracleSharedChecksum "adir" feedRetroIds NewReleaseManager).1

/-- The `1.0.0` asset of `catalogRetro` as stored (OS/Arch recorded,
checksum `CC`, signature from its downloaded file). -/
def assetRetro100 : Asset :=
  ⟨10, ⟨1, 0, 0⟩, "update_linux_amd64", "u1", "", "CC", "s-f-u1", "linux", "amd64"⟩

/-- A hand-written two-version catalog for resolver runs: `linux/amd64` has
versions `1.0.0` (checksum `C0`) and `1.2.0` (checksum `C1`), the latter
being latest. -/
def assetOld : Asset :=
  ⟨10, ⟨1, 0, 0⟩, "update_linux_amd64", "u-old", "", "C0", "sig0", "linux", "amd64"⟩

/-- The latest asset of the hand-written catalog. -/
def assetNew : Asset :=
  ⟨30, ⟨1, 2, 0⟩, "update_linux_amd64", "u-new", "", "C1", "sig1", "linux", "amd64"⟩

/-- The hand-written catalog holding `assetOld` and `assetNew`. -/
def catalogTwo : Catalog :=
  { updateAssetsMap := fun os =>
      if os = "linux" then
        some (fun arch =>
          if arch = "amd64" then some [(⟨1, 0, 0⟩, assetOld), (⟨1, 2, 0⟩, assetNew)]
          else none)
      else none
    latestAssetsMap := fun os =>
      if os = "linux" then
        some (fun arch => if arch = "amd64" then some assetNew else none)
      else none }

/-- A client query already at the latest version `1.2.0`. -/
def paramsAtLatest : Params := ⟨1, "1.2.0", "linux", "amd64", "C1", none⟩

/-- A client query below latest whose checksum matches nothing in the
catalog. -/
def paramsUnknownBuild : Params := ⟨0, "1.0.0", "", "", "ZZZZ", some [("os", "linux"), ("arch", "amd64")]⟩

/-- The second same-version asset of `feedSameVersionTwice` as stored by
the catalog after a successful refresh under `oracleOk`. -/
def assetSameVerB : Asset :=
  ⟨11, ⟨1, 0, 0⟩, "update_linux_amd64.bin", "uB", "", "c-f-uB", "s-f-uB", "linux", "amd64"⟩

/-- The catalog well-formedness invariant maintained by `pushAsset`:
for every `(os, arch)`, (1) every entry of `updateAssetsMap[os][arch]` is
keyed by its asset's version, (2) whenever `latestAssetsMap[os][arch]`
holds an asset, `updateAssetsMap[os][arch]` exists, every entry's version
is `LTE` the latest's, and some entry carries exactly the latest's version,
and (3) a non-empty `updateAssetsMap[os][arch]` implies
`latestAssetsMap[os][arch]` is set. -/
def CatalogInv (g : Catalog) : Prop :=
  ∀ os arch : String,
    (∀ l, byVersionAt g os arch = some l → ∀ p ∈ l, p.1 = p.2.v) ∧
    (∀ a, latestAt g os arch = some a →
      ∃ l, byVersionAt g os arch = some l ∧
        (∀ p ∈ l, Version.LTE p.2.v a.v = true) ∧
        (∃ p ∈ l, p.2.v = a.v)) ∧
    (∀ l, byVersionAt g os arch = some l → l ≠ [] →
      ∃ a, latestAt g os arch = some a)

theorem Version.ltB_iff (a b : Version) :
    Version.ltB a b = true ↔
      (a.major < b.major ∨ (a.major = b.major ∧
        (a.minor < b.minor ∨ (a.minor = b.minor ∧ a.patch < b.patch)))) := by
  simp [Version.ltB]

theorem Version.LTE_refl (a : Version) : Version.LTE a a = true := by
  simp [Version.LTE, Version.ltB]

theorem Version.LTE_of_GT_eq_false (a b : Version) (h : Version.GT a b = false) :
    Version.LTE a b = true := by
  simp only [Version.GT] at h
  simp [Version.LTE, h]

theorem Version.LTE_trans (a b c : Version) (hab : Version.LTE a b = true)
    (hbc : Version.LTE b c = true) : Version.LTE a c = true := by
  simp only [Version.LTE, Bool.not_eq_true', ← Bool.not_eq_true] at *
  intro h
  rw [Version.ltB_iff] at h
  rcases Nat.lt_or_ge b.major a.major with h1 | h1
  · exact hab (by rw [Version.ltB_iff]; omega)
  · rcases Nat.lt_or_ge c.major b.major with h2 | h2
    · exact hbc (by rw [Version.ltB_iff]; omega)
    · rcases Nat.lt_or_ge b.minor a.minor with h3 | h3
      · exact hab (by rw [Version.ltB_iff]; omega)
      · rcases Nat.lt_or_ge c.minor b.minor with h4 | h4
        · exact hbc (by rw [Version.ltB_iff]; omega)
        · rcases Nat.lt_or_ge b.patch a.patch with h5 | h5
          · exact hab (by rw [Version.ltB_iff]; omega)
          · exact hbc (by rw [Version.ltB_iff]; omega)

theorem Version.LTE_of_LTE_of_GT (x c a : Version) (h1 : Version.LTE x c = true)
    (h2 : Version.GT a c = true) : Version.LTE x a = true := by
  simp only [Version.GT] at h2
  simp only [Version.LTE, Bool.not_eq_true', ← Bool.not_eq_true] at *
  intro h
  rw [Version.ltB_iff] at h h2
  exact h1 (by rw [Version.ltB_iff]; omega)

/-- C1: `getReleases` on a feed of two non-empty pages, both carrying a
semver-parseable release, returns only the release of the last non-empty
page: page 1's release (id 1, tag `1.0.0`, which parses) is lost because
the accumulator is re-allocated inside the page loop. -/
theorem getReleases_keeps_only_last_page :
    Version.parse rawRelA.TagName = some ⟨1, 0, 0⟩ ∧
    getReleases feedTwoPages = Except.ok [⟨2, "z2", ⟨2, 0, 0⟩, []⟩] :=
  ⟨rfl, rfl⟩

/-- C2: `CheckForUpdate` called with a nil `*Params` panics with a
nil-pointer dereference at `p.Version < 1`, before the `p == nil` guard
runs, instead of returning the `Expecting params` error. -/
theorem CheckForUpdate_nil_params_panics (g : Catalog) (o : Oracles)
    (assetDir patchDir : String) :
    CheckForUpdate g o assetDir patchDir none = (none, CFUOutcome.panic) :=
  rfl

/-- C3 counterexample: under `oracleFailU2` the second asset of the single
release fails to download, `UpdateAssetsMap` returns an error, yet the
catalog is NOT as it was before the call: starting from the empty
`NewReleaseManager` catalog (no `linux/amd64` latest entry), the failed
call leaves the first asset published at `linux/amd64`. -/
theorem UpdateAssetsMap_error_leaves_partial_catalog :
    (UpdateAssetsMap oracleFailU2 "adir" feedTwoAssets NewReleaseManager).2 =
      some "Could not push asset: download error" ∧
    latestAt NewReleaseManager "linux" "amd64" = none ∧
    ((latestAt (UpdateAssetsMap oracleFailU2 "adir" feedTwoAssets NewReleaseManager).1
        "linux" "amd64").map (fun a => a.Checksum)) = some "c-f-u1" := by
  refine ⟨by decide, rfl, by decide⟩

/-- C3 amended: when the upstream fetch itself fails (`getReleases` returns
a network error at any page), `UpdateAssetsMap` surfaces that error with
the catalog exactly as it was before the call; a per-asset
download/hash/sign failure also aborts the call but does not roll back the
assets already pushed during it. -/
theorem UpdateAssetsMap_unchanged_on_feed_error (o : Oracles)
    (assetDir : String) (feed : Feed) (g : Catalog) (e : String)
    (h : getReleases feed = Except.error e) :
    UpdateAssetsMap o assetDir feed g = (g, some e) := by
  simp [UpdateAssetsMap, h]

/-- Witness for the amended C3 theorem at a concrete erroring feed. -/
theorem UpdateAssetsMap_unchanged_on_feed_error_witness :
    UpdateAssetsMap oracleOk "adir" feedNetworkError NewReleaseManager =
      (NewReleaseManager, some "network down") :=
  UpdateAssetsMap_unchanged_on_feed_error oracleOk "adir" feedNetworkError
    NewReleaseManager "network down" rfl

/-- C4 counterexample: one successful `UpdateAssetsMap` pushes two assets
at the same version `1.0.0` for `linux/amd64` (both filenames match the
update pattern).  The second push replaces the first in
`updateAssetsMap[os][arch]` but NOT in `latestAssetsMap[os][arch]`, because
the latest slot is only replaced on a strictly greater version: afterwards
the sole `updateAssetsMap` entry at the greatest (only) version carries
checksum `c-f-uB` while the latest asset carries `c-f-uA`, so the latest is
not the element of `updateAssetsMap[os][arch]` at the greatest semver, and
a same-version re-publish does not replace the prior entry in both maps. -/
theorem UpdateAssetsMap_same_version_latest_not_replaced :
    (UpdateAssetsMap oracleOk "adir" feedSameVersionTwice NewReleaseManager).2 = none ∧
    ((latestAt (UpdateAssetsMap oracleOk "adir" feedSameVersionTwice NewReleaseManager).1
        "linux" "amd64").map (fun a => a.Checksum)) = some "c-f-uA" ∧
    ((byVersionAt (UpdateAssetsMap oracleOk "adir" feedSameVersionTwice NewReleaseManager).1
        "linux" "amd64").map (List.map (fun p => (p.1, p.2.Checksum)))) =
      some [(⟨1, 0, 0⟩, "c-f-uB")] := by
  refine ⟨by decide, by decide, by decide⟩

/-- C7 counterexample: the filename `update_freebsd_amd64` has the
`update_<os>_<arch>` shape with an OS outside the closed set, but
`getAssetInfo` reports the generic `Could not find asset info.` outcome,
not the distinct `Unknown OS` error: the regexp alternation already refuses
the name, so the Unknown-OS branch never sees it. -/
theorem getAssetInfo_freebsd_generic_error :
    getAssetInfo "update_freebsd_amd64" = Except.error "Could not find asset info." :=
  rfl

/-- C8 counterexample: `update_linux_arm64` is not `update_<os>_<arch>` for
any `(os, arch)` of the closed sets (its arch token is `arm64`), yet the
classifier neither fails nor reports not-an-update-asset: it succeeds with
`(linux, arm)`, because the regexp matches `arm` and treats `64` as a
trailing suffix. -/
theorem getAssetInfo_arm64_misclassified :
    getAssetInfo "update_linux_arm64" = Except.ok ⟨"linux", "arm"⟩ ∧
    isUpdateAsset "update_linux_arm64" = true ∧
    (osAlternatives.all (fun os => archAlternatives.all (fun arch =>
      !("update_" ++ os ++ "_" ++ arch == "update_linux_arm64")))) = true := by
  refine ⟨rfl, rfl, by decide⟩

/-- C9 counterexample: in the reachable catalog `catalogRetro`, versions
`1.0.0` and `1.1.0` of `linux/amd64` both carry checksum `CC` and the
latest is `1.2.0`; the resolver's checksum lookup returns the `1.0.0`
asset — the first match in iteration order — although `1.1.0` is the
newest version below latest carrying that checksum. -/
theorem lookupAssetWithChecksum_not_newest_below_latest :
    (UpdateAssetsMap oracleSharedChecksum "adir" feedRetroIds NewReleaseManager).2 = none ∧
    ((byVersionAt catalogRetro "linux" "amd64").map
        (List.map (fun p => (p.1, p.2.Checksum)))) =
      some [(⟨1, 0, 0⟩, "CC"), (⟨1, 1, 0⟩, "CC"), (⟨1, 2, 0⟩, "DD")] ∧
    ((latestAt catalogRetro "linux" "amd64").map (fun a => a.v)) = some ⟨1, 2, 0⟩ ∧
    ((lookupAssetWithChecksum catalogRetro "linux" "amd64" "CC").toOption.map
        (fun a => a.v)) = some ⟨1, 0, 0⟩ ∧
    Version.ltB ⟨1, 0, 0⟩ ⟨1, 1, 0⟩ = true := by
  refine ⟨by decide, by decide, by decide, by decide, by decide⟩

/-- C5: for a validated query (after the in-place parameter mutations) whose
`(OS, Arch)` has a latest asset `u` in the catalog, `CheckForUpdate` returns
the sentinel `ErrNoUpdateAvailable` exactly when `u`'s version is `LTE` the
client's app version — equality included — and the sentinel is a distinct
constructor, unequal to every message error. -/
theorem CheckForUpdate_sentinel_iff (g : Catalog) (o : Oracles)
    (assetDir patchDir : String) (p : Params) (appVersion : Version) (u : Asset)
    (hv : Version.parse (coerceParams p).AppVersion = some appVersion)
    (hc : (coerceParams p).Checksum ≠ "")
    (hos : (coerceParams p).OS ≠ "")
    (har : (coerceParams p).Arch ≠ "")
    (hu : getProductUpdate g (coerceParams p).OS (coerceParams p).Arch = Except.ok u) :
    (((CheckForUpdate g o assetDir patchDir (some p)).2 =
        CFUOutcome.failure UpdateError.errNoUpdateAvailable) ↔
      Version.LTE u.v appVersion = true) ∧
    ∀ s, UpdateError.msg s ≠ UpdateError.errNoUpdateAvailable := by
  constructor
  · show (checkForUpdateCore g o assetDir patchDir (coerceParams p) = _) ↔ _
    unfold checkForUpdateCore
    simp only [hv, if_neg hc, if_neg hos, if_neg har, hu]
    cases hlte : Version.LTE u.v appVersion with
    | true => simp [hlte]
    | false =>
      simp only [hlte, Bool.false_eq_true, if_false]
      rcases hl : lookupAssetWithChecksum g (coerceParams p).OS (coerceParams p).Arch
          (coerceParams p).Checksum with e | cur
      · simp
      · rcases hp : o.generatePatch cur.URL u.URL assetDir patchDir with e | patch <;>
          simp [hp]
  · intro s h
    exact UpdateError.noConfusion h

/-- Witness for C5 at a concrete catalog and a client already at the latest
version. -/
theorem CheckForUpdate_sentinel_iff_witness :
    (((CheckForUpdate catalogTwo oracleOk "a" "p" (some paramsAtLatest)).2 =
        CFUOutcome.failure UpdateError.errNoUpdateAvailable) ↔
      Version.LTE assetNew.v ⟨1, 2, 0⟩ = true) ∧
    ∀ s, UpdateError.msg s ≠ UpdateError.errNoUpdateAvailable :=
  CheckForUpdate_sentinel_iff catalogTwo oracleOk "a" "p" paramsAtLatest
    ⟨1, 2, 0⟩ assetNew rfl (by decide) (by decide) (by decide) rfl

/-- C6: for a validated query with a strictly newer latest asset `u` whose
catalog holds no asset matching the client's checksum, `CheckForUpdate`
succeeds with the full-update result: initiative `auto`, `u`'s URL, no
patch URL, patch type none, and `u`'s version string, checksum and
signature. -/
theorem CheckForUpdate_unknown_checksum_full_update (g : Catalog) (o : Oracles)
    (assetDir patchDir : String) (p : Params) (appVersion : Version) (u : Asset)
    (e : String)
    (hv : Version.parse (coerceParams p).AppVersion = some appVersion)
    (hc : (coerceParams p).Checksum ≠ "")
    (hos : (coerceParams p).OS ≠ "")
    (har : (coerceParams p).Arch ≠ "")
    (hu : getProductUpdate g (coerceParams p).OS (coerceParams p).Arch = Except.ok u)
    (hgt : Version.LTE u.v appVersion = false)
    (hl : lookupAssetWithChecksum g (coerceParams p).OS (coerceParams p).Arch
        (coerceParams p).Checksum = Except.error e) :
    (CheckForUpdate g o assetDir patchDir (some p)).2 =
      CFUOutcome.success
        { Initiative := INITIATIVE_AUTO, URL := u.URL, PatchURL := "",
          PatchType := PATCHTYPE_NONE, Version := Version.toString u.v,
          Checksum := u.Checksum, Signature := u.Signature } := by
  show checkForUpdateCore g o assetDir patchDir (coerceParams p) = _
  unfold checkForUpdateCore
  simp only [hv, if_neg hc, if_neg hos, if_neg har, hu]
  simp [hgt, hl]

/-- Witness for C6: an unknown build below latest gets the full-update
result carrying `assetNew`'s fields. -/
theorem CheckForUpdate_unknown_checksum_full_update_witness :
    (CheckForUpdate catalogTwo oracleOk "a" "p" (some paramsUnknownBuild)).2 =
      CFUOutcome.success
        { Initiative := INITIATIVE_AUTO, URL := assetNew.URL, PatchURL := "",
          PatchType := PATCHTYPE_NONE, Version := Version.toString assetNew.v,
          Checksum := assetNew.Checksum, Signature := assetNew.Signature } :=
  CheckForUpdate_unknown_checksum_full_update catalogTwo oracleOk "a" "p"
    paramsUnknownBuild ⟨1, 0, 0⟩ assetNew
    "Could not find a matching checksum in assets list."
    rfl (by decide) (by decide) (by decide) rfl (by decide) rfl

/-- C10: `CheckForUpdate` on a non-nil `Params` hands back the caller's
record mutated exactly as follows: `Version` becomes 1 when it was below 1,
`OS` and `Arch` are overwritten by the non-empty values of `Tags["os"]` and
`Tags["arch"]` when `Tags` is non-nil, and `AppVersion`, `Checksum` and
`Tags` are untouched. -/
theorem CheckForUpdate_mutates_only_version_os_arch (g : Catalog) (o : Oracles)
    (assetDir patchDir : String) (p : Params) :
    (CheckForUpdate g o assetDir patchDir (some p)).1 = some
      { Version := if p.Version < 1 then 1 else p.Version
        AppVersion := p.AppVersion
        OS := match p.Tags with
              | none => p.OS
              | some tags =>
                if tagsGet tags "os" ≠ "" then tagsGet tags "os" else p.OS
        Arch := match p.Tags with
                | none => p.Arch
                | some tags =>
                  if tagsGet tags "arch" ≠ "" then tagsGet tags "arch" else p.Arch
        Checksum := p.Checksum
        Tags := p.Tags } := by
  show some (coerceParams p) = _
  rcases p with ⟨V, AV, POS, PAR, PC, PT⟩
  unfold coerceParams
  cases PT with
  | none => by_cases hV : V < 1 <;> simp [hV]
  | some tags =>
    by_cases hV : V < 1 <;>
      by_cases hOS : tagsGet tags "os" = "" <;>
        by_cases hAR : tagsGet tags "arch" = "" <;>
          simp [hV, hOS, hAR]

/-- A successful alternation match returns one of the candidate words, and
that word followed by the returned remainder reassembles the input. -/
theorem matchAlternation_spec : ∀ (cands : List String) (s : List Char)
    (c : String) (r : List Char), matchAlternation cands s = some (c, r) →
    c ∈ cands ∧ c.data ++ r = s := by
  intro cands
  induction cands with
  | nil => intro s c r h; simp [matchAlternation] at h
  | cons hd tl ih =>
    intro s c r h
    rw [matchAlternation] at h
    by_cases hp : hd.data.isPrefixOf s
    · rw [if_pos hp] at h
      injection h with h1
      cases h1
      refine ⟨List.mem_cons_self hd tl, ?_⟩
      rcases List.isPrefixOf_iff_prefix.mp hp with ⟨t, ht⟩
      rw [← ht, List.drop_left]
    · rw [if_neg hp] at h
      rcases ih s c r h with ⟨h1, h2⟩
      exact ⟨List.mem_cons_of_mem hd h1, h2⟩

/-- A successful regexp submatch captures an OS word and an arch word of
the two alternations, and the input decomposes as
`update_` ++ OS ++ `_` ++ Arch ++ rest. -/
theorem updateAssetSubmatch_spec (s : String) (info : AssetInfo)
    (h : updateAssetSubmatch s = some info) :
    info.OS ∈ osAlternatives ∧ info.Arch ∈ archAlternatives ∧
    ∃ rest : List Char,
      s.data = "update_".data ++ (info.OS.data ++ ("_".data ++ (info.Arch.data ++ rest))) := by
  rw [updateAssetSubmatch] at h
  by_cases h0 : "update_".data.isPrefixOf s.data
  · rw [if_pos h0] at h
    rcases hm1 : matchAlternation osAlternatives (s.data.drop "update_".data.length) with
      _ | ⟨os, rest1⟩
    · rw [hm1] at h
      exact Option.noConfusion h
    · rw [hm1] at h
      simp only [] at h
      by_cases h2 : "_".data.isPrefixOf rest1
      · rw [if_pos h2] at h
        rcases hm2 : matchAlternation archAlternatives (rest1.drop "_".data.length) with
          _ | ⟨arch, rest2⟩
        · rw [hm2] at h
          exact Option.noConfusion h
        · rw [hm2] at h
          simp only [] at h
          by_cases h3 : rest2.all (fun c => c ≠ '\n')
          · rw [if_pos h3] at h
            injection h with h4
            cases h4
            obtain ⟨hos1, hos2⟩ := matchAlternation_spec osAlternatives _ os rest1 hm1
            obtain ⟨har1, har2⟩ := matchAlternation_spec archAlternatives _ arch rest2 hm2
            rcases List.isPrefixOf_iff_prefix.mp h0 with ⟨t0, ht0⟩
            rcases List.isPrefixOf_iff_prefix.mp h2 with ⟨t1, ht1⟩
            have ht0d : s.data.drop "update_".data.length = t0 := by
              rw [← ht0, List.drop_left]
            have ht1d : rest1.drop "_".data.length = t1 := by
              rw [← ht1, List.drop_left]
            rw [ht0d] at hos2
            rw [ht1d] at har2
            refine ⟨hos1, har1, rest2, ?_⟩
            rw [← ht0, ← hos2, ← ht1, ← har2]
          · rw [if_neg h3] at h
            exact Option.noConfusion h
      · rw [if_neg h2] at h
        exact Option.noConfusion h
  · rw [if_neg h0] at h
    exact Option.noConfusion h

/-- C7 amended: every failure of `getAssetInfo` carries the generic
`Could not find asset info.` message; the distinct `Unknown OS` and
`Unknown architecture` branches are unreachable, because the regexp only
captures OS and arch words already inside the closed sets. -/
theorem getAssetInfo_error_always_generic (s e : String)
    (h : getAssetInfo s = Except.error e) : e = "Could not find asset info." := by
  rw [getAssetInfo] at h
  rcases hm : updateAssetSubmatch s with _ | info
  · rw [hm] at h
    simp only [] at h
    injection h with h1
    exact h1.symm
  · rw [hm] at h
    simp only [] at h
    obtain ⟨hos, har, -⟩ := updateAssetSubmatch_spec s info hm
    have hcond1 : ¬(info.OS ≠ OS.Windows ∧ info.OS ≠ OS.Linux ∧ info.OS ≠ OS.Darwin) := by
      simp only [osAlternatives, List.mem_cons, List.not_mem_nil, or_false] at hos
      rcases hos with h1 | h1 | h1 <;> simp [OS.Windows, OS.Linux, OS.Darwin, h1]
    have hcond2 : ¬(info.Arch ≠ Arch.X64 ∧ info.Arch ≠ Arch.X86 ∧ info.Arch ≠ Arch.ARM) := by
      simp only [archAlternatives, List.mem_cons, List.not_mem_nil, or_false] at har
      rcases har with h1 | h1 | h1 <;> simp [Arch.X64, Arch.X86, Arch.ARM, h1]
    rw [if_neg hcond1, if_neg hcond2] at h
    exact Except.noConfusion h

/-- Witness for the amended C7 theorem: the out-of-set filename
`update_freebsd_amd64` evaluates to an error, and that error is the
generic one. -/
theorem getAssetInfo_error_always_generic_witness :
    "Could not find asset info." = "Could not find asset info." :=
  getAssetInfo_error_always_generic "update_freebsd_amd64"
    "Could not find asset info." rfl

/-- C8 amended: the classifier round-trips every `(os, arch)` of the closed
sets, and every successful classification returns a pair from the closed
sets such that `update_<os>_<arch>` is a prefix of the input; but an input
need not be exactly of that shape to succeed — any trailing suffix is
accepted (which is how `update_linux_arm64` classifies as `(linux, arm)`
instead of failing). -/
theorem getAssetInfo_roundtrip_and_soundness :
    (∀ os arch, os ∈ osAlternatives → arch ∈ archAlternatives →
      getAssetInfo ("update_" ++ os ++ "_" ++ arch) = Except.ok ⟨os, arch⟩) ∧
    (∀ s info, getAssetInfo s = Except.ok info →
      info.OS ∈ osAlternatives ∧ info.Arch ∈ archAlternatives ∧
      ∃ suffix : String, s = "update_" ++ info.OS ++ "_" ++ info.Arch ++ suffix) := by
  constructor
  · intro os arch hos harch
    fin_cases hos <;> fin_cases harch <;> rfl
  · intro s info h
    have hm : updateAssetSubmatch s = some info := by
      rw [getAssetInfo] at h
      rcases hm : updateAssetSubmatch s with _ | info2
      · rw [hm] at h
        simp only [] at h
        exact Except.noConfusion h
      · rw [hm] at h
        simp only [] at h
        by_cases hc1 : info2.OS ≠ OS.Windows ∧ info2.OS ≠ OS.Linux ∧ info2.OS ≠ OS.Darwin
        · rw [if_pos hc1] at h
          exact Except.noConfusion h
        · rw [if_neg hc1] at h
          by_cases hc2 : info2.Arch ≠ Arch.X64 ∧ info2.Arch ≠ Arch.X86 ∧ info2.Arch ≠ Arch.ARM
          · rw [if_pos hc2] at h
            exact Except.noConfusion h
          · rw [if_neg hc2] at h
            injection h with h1
            subst h1
            rfl
    obtain ⟨hos, har, rest, hdecomp⟩ := updateAssetSubmatch_spec s info hm
    refine ⟨hos, har, ⟨String.mk rest, ?_⟩⟩
    apply String.ext
    rw [String.data_append, String.data_append, String.data_append, String.data_append]
    rw [hdecomp]
    simp [List.append_assoc]

/-- Witness for the amended C8 theorem: `update_windows_386.exe` classifies
as `(windows, 386)`, both in the closed sets, and the name decomposes with
suffix `.exe`. -/
theorem getAssetInfo_roundtrip_and_soundness_witness :
    "windows" ∈ osAlternatives ∧ "386" ∈ archAlternatives ∧
    ∃ suffix : String,
      "update_windows_386.exe" = "update_" ++ "windows" ++ "_" ++ "386" ++ suffix :=
  getAssetInfo_roundtrip_and_soundness.2 "update_windows_386.exe" ⟨"windows", "386"⟩ rfl

/-- C9 amended: whatever `lookupAssetWithChecksum` returns successfully is
an asset of `updateAssetsMap[os][arch]` whose checksum equals the query
checksum — it is the first such in iteration order, with no
newest-version-below-latest selection. -/
theorem lookupAssetWithChecksum_ok_spec (g : Catalog) (os arch c : String)
    (a : Asset) (h : lookupAssetWithChecksum g os arch c = Except.ok a) :
    a.Checksum = c ∧ ∃ l k, byVersionAt g os arch = some l ∧ (k, a) ∈ l := by
  rw [lookupAssetWithChecksum] at h
  rcases h1 : g.updateAssetsMap os with _ | archMap
  · rw [h1] at h
    exact Except.noConfusion h
  · rw [h1] at h
    simp only [] at h
    rcases h2 : archMap arch with _ | l
    · rw [h2] at h
      exact Except.noConfusion h
    · rw [h2] at h
      simp only [] at h
      rcases h3 : l.find? (fun ka => ka.2.Checksum == c) with _ | ka
      · rw [h3] at h
        exact Except.noConfusion h
      · rw [h3] at h
        simp only [] at h
        injection h with h4
        have hmem := List.mem_of_find?_eq_some h3
        have hpred := List.find?_some h3
        refine ⟨?_, l, ka.1, ?_, ?_⟩
        · rw [← h4]; simpa using hpred
        · simp only [byVersionAt, h1, h2]
        · rw [← h4, Prod.mk.eta]; exact hmem

/-- Witness for the amended C9 theorem at the retro-id catalog: the
returned `1.0.0` asset matches checksum `CC` and is an entry of
`updateAssetsMap["linux"]["amd64"]`. -/
theorem lookupAssetWithChecksum_ok_spec_witness :
    assetRetro100.Checksum = "CC" ∧
    ∃ l k, byVersionAt catalogRetro "linux" "amd64" = some l ∧ (k, assetRetro100) ∈ l :=
  lookupAssetWithChecksum_ok_spec catalogRetro "linux" "amd64" "CC" assetRetro100 rfl

/-- Storing a key never empties an association list. -/
theorem setA_ne_nil (l : List (Version × Asset)) (k : Version) (a : Asset) :
    setA l k a ≠ [] := by
  cases l with
  | nil => simp [setA]
  | cons hd tl =>
    rcases hd with ⟨k1, a1⟩
    by_cases hk : k1 = k <;> simp [setA, hk]

/-- Every entry after a store is the stored pair or an old entry. -/
theorem mem_setA (l : List (Version × Asset)) (k : Version) (a : Asset)
    (p : Version × Asset) (h : p ∈ setA l k a) : p = (k, a) ∨ p ∈ l := by
  induction l with
  | nil =>
    simp [setA] at h
    exact Or.inl h
  | cons hd tl ih =>
    rcases hd with ⟨k1, a1⟩
    simp only [setA] at h
    by_cases hk : k1 = k
    · rw [if_pos hk] at h
      rcases List.mem_cons.mp h with h1 | h1
      · exact Or.inl h1
      · exact Or.inr (List.mem_cons_of_mem _ h1)
    · rw [if_neg hk] at h
      rcases List.mem_cons.mp h with h1 | h1
      · exact Or.inr (h1 ▸ List.mem_cons_self _ _)
      · rcases ih h1 with h2 | h2
        · exact Or.inl h2
        · exact Or.inr (List.mem_cons_of_mem _ h2)

/-- The stored pair is an entry after a store. -/
theorem self_mem_setA (l : List (Version × Asset)) (k : Version) (a : Asset) :
    (k, a) ∈ setA l k a := by
  induction l with
  | nil => simp [setA]
  | cons hd tl ih =>
    rcases hd with ⟨k1, a1⟩
    by_cases hk : k1 = k
    · simp [setA, hk]
    · simp only [setA, if_neg hk]
      exact List.mem_cons_of_mem _ ih

/-- Old entries with a different key survive a store. -/
theorem mem_setA_of_mem (l : List (Version × Asset)) (k : Version) (a : Asset)
    (q : Version × Asset) (hq : q ∈ l) (hne : q.1 ≠ k) : q ∈ setA l k a := by
  induction l with
  | nil => cases hq
  | cons hd tl ih =>
    rcases hd with ⟨k1, a1⟩
    rcases List.mem_cons.mp hq with h1 | h1
    · by_cases hk : k1 = k
      · exfalso
        apply hne
        rw [h1]
        exact hk
      · simp only [setA, if_neg hk]
        exact h1 ▸ List.mem_cons_self _ _
    · by_cases hk : k1 = k
      · simp only [setA, if_pos hk]
        exact List.mem_cons_of_mem _ h1
      · simp only [setA, if_neg hk]
        exact List.mem_cons_of_mem _ (ih h1)

/-- After `storeAsset`, the version map at the touched `(os, arch)` is the
old list (or `[]`) with the asset stored at its key. -/
theorem byVersionAt_storeAsset_same (g : Catalog) (os arch : String)
    (v : Version) (a : Asset) :
    byVersionAt (storeAsset g os arch v a) os arch =
      some (setA ((byVersionAt g os arch).getD []) v a) := by
  rcases hg : g.updateAssetsMap os with _ | m <;>
    simp [byVersionAt, storeAsset, hg]

/-- After `storeAsset`, the latest entry at the touched `(os, arch)` is the
asset when the slot was empty or the asset's version is strictly greater,
otherwise the old latest. -/
theorem latestAt_storeAsset_same (g : Catalog) (os arch : String)
    (v : Version) (a : Asset) :
    latestAt (storeAsset g os arch v a) os arch =
      some (match latestAt g os arch with
            | none => a
            | some cur => if Version.GT a.v cur.v then a else cur) := by
  rcases hg : g.latestAssetsMap os with _ | m <;>
    simp [latestAt, storeAsset, hg]

/-- `storeAsset` does not touch the version map of any other slot. -/
theorem byVersionAt_storeAsset_other (g : Catalog) (os arch : String)
    (v : Version) (a : Asset) (os2 arch2 : String)
    (h : ¬(os2 = os ∧ arch2 = arch)) :
    byVersionAt (storeAsset g os arch v a) os2 arch2 = byVersionAt g os2 arch2 := by
  by_cases ho : os2 = os
  · subst ho
    have ha : ¬(arch2 = arch) := fun hh => h ⟨rfl, hh⟩
    rcases hg : g.updateAssetsMap os2 with _ | m <;>
      simp [byVersionAt, storeAsset, hg, ha]
  · simp [byVersionAt, storeAsset, ho]

/-- `storeAsset` does not touch the latest entry of any other slot. -/
theorem latestAt_storeAsset_other (g : Catalog) (os arch : String)
    (v : Version) (a : Asset) (os2 arch2 : String)
    (h : ¬(os2 = os ∧ arch2 = arch)) :
    latestAt (storeAsset g os arch v a) os2 arch2 = latestAt g os2 arch2 := by
  by_cases ho : os2 = os
  · subst ho
    have ha : ¬(arch2 = arch) := fun hh => h ⟨rfl, hh⟩
    rcases hg : g.latestAssetsMap os2 with _ | m <;>
      simp [latestAt, storeAsset, hg, ha]
  · simp [latestAt, storeAsset, ho]

/-- The map-updating tail of `pushAsset` preserves the catalog invariant:
the stored asset is keyed by its own version, the latest slot is replaced
only on a strictly greater version, and on a version tie the stored entry
itself carries the latest's version. -/
theorem storeAsset_preserves_inv (g : Catalog) (os arch : String) (v : Version)
    (a : Asset) (hva : a.v = v) (hInv : CatalogInv g) :
    CatalogInv (storeAsset g os arch v a) := by
  subst hva
  intro os2 arch2
  by_cases hsame : os2 = os ∧ arch2 = arch
  · obtain ⟨ho, ha⟩ := hsame
    subst ho
    subst ha
    refine ⟨?_, ?_, ?_⟩
    · intro l hl p hp
      rw [byVersionAt_storeAsset_same] at hl
      injection hl with hl1
      rw [← hl1] at hp
      rcases mem_setA _ _ _ p hp with h1 | h1
      · rw [h1]
      · rcases hb : byVersionAt g os2 arch2 with _ | l0
        · rw [hb] at h1
          simp at h1
        · rw [hb] at h1
          exact (hInv os2 arch2).1 l0 hb p h1
    · intro lat hlat
      rw [latestAt_storeAsset_same] at hlat
      injection hlat with hlat1
      refine ⟨setA ((byVersionAt g os2 arch2).getD []) a.v a,
        byVersionAt_storeAsset_same g os2 arch2 a.v a, ?_⟩
      rcases hold : latestAt g os2 arch2 with _ | cur
      · rw [hold] at hlat1
        simp only [] at hlat1
        subst hlat1
        have hl0 : (byVersionAt g os2 arch2).getD [] = [] := by
          rcases hb : byVersionAt g os2 arch2 with _ | l0
          · rfl
          · by_cases hnil : l0 = []
            · simp [hnil]
            · obtain ⟨a0, ha0⟩ := (hInv os2 arch2).2.2 l0 hb hnil
              rw [hold] at ha0
              exact Option.noConfusion ha0
        rw [hl0]
        constructor
        · intro p hp
          rcases mem_setA _ _ _ p hp with h1 | h1
          · rw [h1]
            exact Version.LTE_refl a.v
          · exact absurd h1 (List.not_mem_nil p)
        · exact ⟨(a.v, a), self_mem_setA _ _ _, rfl⟩
      · rw [hold] at hlat1
        simp only [] at hlat1
        obtain ⟨l0, hb, hdom, q, hq, hqv⟩ := (hInv os2 arch2).2.1 cur hold
        have hl0 : (byVersionAt g os2 arch2).getD [] = l0 := by
          rw [hb]
          rfl
        rw [hl0]
        by_cases hgt : Version.GT a.v cur.v = true
        · rw [if_pos hgt] at hlat1
          subst hlat1
          constructor
          · intro p hp
            rcases mem_setA _ _ _ p hp with h1 | h1
            · rw [h1]
              exact Version.LTE_refl a.v
            · exact Version.LTE_of_LTE_of_GT p.2.v cur.v a.v (hdom p h1) hgt
          · exact ⟨(a.v, a), self_mem_setA _ _ _, rfl⟩
        · rw [if_neg hgt] at hlat1
          subst hlat1
          have hgf : Version.GT a.v cur.v = false := by
            revert hgt
            cases Version.GT a.v cur.v <;> simp
          have hle : Version.LTE a.v cur.v = true :=
            Version.LTE_of_GT_eq_false a.v cur.v hgf
          constructor
          · intro p hp
            rcases mem_setA _ _ _ p hp with h1 | h1
            · rw [h1]
              exact hle
            · exact hdom p h1
          · by_cases hqk : q.1 = a.v
            · have hkc := (hInv os2 arch2).1 l0 hb q hq
              refine ⟨(a.v, a), self_mem_setA _ _ _, ?_⟩
              show a.v = cur.v
              rw [← hqk, hkc, hqv]
            · exact ⟨q, mem_setA_of_mem _ _ _ q hq hqk, hqv⟩
    · intro l hl hne
      rw [latestAt_storeAsset_same]
      exact ⟨_, rfl⟩
  · have hb := byVersionAt_storeAsset_other g os arch a.v a os2 arch2 hsame
    have hlo := latestAt_storeAsset_other g os arch a.v a os2 arch2 hsame
    obtain ⟨c1, c2, c3⟩ := hInv os2 arch2
    refine ⟨?_, ?_, ?_⟩
    · intro l hll p hp
      rw [hb] at hll
      exact c1 l hll p hp
    · intro lat hlat
      rw [hlo] at hlat
      obtain ⟨l0, hb0, hdom, hex⟩ := c2 lat hlat
      refine ⟨l0, ?_, hdom, hex⟩
      rw [hb]
      exact hb0
    · intro l hll hne
      rw [hb] at hll
      obtain ⟨lat, hlat⟩ := c3 l hll hne
      refine ⟨lat, ?_⟩
      rw [hlo]
      exact hlat

/-- A successful `pushAsset` preserves the catalog invariant. -/
theorem pushAsset_preserves_inv (o : Oracles) (assetDir : String) (g : Catalog)
    (os arch : String) (asset : Asset) (g2 : Catalog)
    (h : pushAsset o assetDir g os arch asset = Except.ok g2)
    (hInv : CatalogInv g) : CatalogInv g2 := by
  simp only [pushAsset] at h
  by_cases hv : Version.EQ asset.v emptyVersion = true
  · rw [if_pos hv] at h
    exact Except.noConfusion h
  · rw [if_neg hv] at h
    rcases hd : o.downloadAsset asset.URL assetDir with e | lf
    · rw [hd] at h
      exact Except.noConfusion h
    · rw [hd] at h
      simp only [] at h
      rcases hc : o.checksumForFile lf with e | ck
      · rw [hc] at h
        exact Except.noConfusion h
      · rw [hc] at h
        simp only [] at h
        rcases hs : o.signatureForFile lf with e | sg
        · rw [hs] at h
          exact Except.noConfusion h
        · rw [hs] at h
          simp only [] at h
          injection h with h1
          rw [← h1]
          exact storeAsset_preserves_inv g os arch asset.v _ rfl hInv

/-- The per-release asset loop preserves the catalog invariant, whatever
state it stops in. -/
theorem processAssets_preserves_inv (o : Oracles) (assetDir : String)
    (relVersion : Version) : ∀ (as2 : List Asset) (g : Catalog),
    CatalogInv g → CatalogInv (processAssets o assetDir relVersion as2 g).1 := by
  intro as2
  induction as2 with
  | nil => intro g hg; exact hg
  | cons a rest ih =>
    intro g hg
    simp only [processAssets]
    by_cases hu : isUpdateAsset a.Name = true
    · rw [if_pos hu]
      rcases hi : getAssetInfo a.Name with e | info
      · simp only [hi]
        exact hg
      · simp only [hi]
        rcases hp : pushAsset o assetDir g info.OS info.Arch { a with v := relVersion }
          with e | g2
        · simp only [hp]
          exact hg
        · simp only [hp]
          exact ih g2 (pushAsset_preserves_inv o assetDir g info.OS info.Arch _ g2 hp hg)
    · rw [if_neg hu]
      exact ih g hg

/-- The release loop preserves the catalog invariant, whatever state it
stops in. -/
theorem processReleases_preserves_inv (o : Oracles) (assetDir : String) :
    ∀ (rs : List Release) (g : Catalog), CatalogInv g →
    CatalogInv (processReleases o assetDir rs g).1 := by
  intro rs
  induction rs with
  | nil => intro g hg; exact hg
  | cons r rest ih =>
    intro g hg
    simp only [processReleases]
    rcases hpa : processAssets o assetDir r.version r.Assets g with ⟨g2, e⟩
    have hg2 : CatalogInv g2 := by
      have h2 := processAssets_preserves_inv o assetDir r.version r.Assets g hg
      rw [hpa] at h2
      exact h2
    cases e with
    | none =>
      simp only [hpa]
      exact ih g2 hg2
    | some err =>
      simp only [hpa]
      exact hg2

/-- The freshly created catalog satisfies the invariant. -/
theorem NewReleaseManager_inv : CatalogInv NewReleaseManager := by
  intro os arch
  refine ⟨?_, ?_, ?_⟩
  · intro l hl
    simp [byVersionAt, NewReleaseManager] at hl
  · intro a ha
    simp [latestAt, NewReleaseManager] at ha
  · intro l hl
    simp [byVersionAt, NewReleaseManager] at hl

/-- C4 amended: after a successful `UpdateAssetsMap` on a catalog
satisfying the invariant (as the fresh catalog does), every `(os, arch)`
with a non-empty `updateAssetsMap[os][arch]` has a latest asset whose
version is `LTE`-greatest among the entries and is attained by some entry —
though, per the counterexample, not necessarily by the entry stored at that
version. -/
theorem UpdateAssetsMap_latest_version_is_max (o : Oracles) (assetDir : String)
    (feed : Feed) (g : Catalog) (hInv : CatalogInv g)
    (_hok : (UpdateAssetsMap o assetDir feed g).2 = none)
    (os arch : String) (l : List (Version × Asset))
    (hl : byVersionAt (UpdateAssetsMap o assetDir feed g).1 os arch = some l)
    (hne : l ≠ []) :
    ∃ a, latestAt (UpdateAssetsMap o assetDir feed g).1 os arch = some a ∧
      (∀ p ∈ l, Version.LTE p.2.v a.v = true) ∧ (∃ p ∈ l, p.2.v = a.v) := by
  have hInv2 : CatalogInv (UpdateAssetsMap o assetDir feed g).1 := by
    rw [UpdateAssetsMap]
    rcases hr : getReleases feed with e | rs
    · exact hInv
    · exact processReleases_preserves_inv o assetDir rs g hInv
  obtain ⟨a, ha⟩ := (hInv2 os arch).2.2 l hl hne
  obtain ⟨l2, hl2, hdom, hex⟩ := (hInv2 os arch).2.1 a ha
  rw [hl] at hl2
  injection hl2 with hh
  subst hh
  exact ⟨a, ha, hdom, hex⟩

/-- Witness for the amended C4 theorem on the same-version feed: the
resulting `linux/amd64` slot is non-empty and its latest dominates and
attains the maximum version. -/
theorem UpdateAssetsMap_latest_version_is_max_witness :
    ∃ a, latestAt (UpdateAssetsMap oracleOk "adir" feedSameVersionTwice
        NewReleaseManager).1 "linux" "amd64" = some a ∧
      (∀ p ∈ [((⟨1, 0, 0⟩ : Version), assetSameVerB)],
        Version.LTE p.2.v a.v = true) ∧
      (∃ p ∈ [((⟨1, 0, 0⟩ : Version), assetSameVerB)], p.2.v = a.v) :=
  UpdateAssetsMap_latest_version_is_max oracleOk "adir" feedSameVersionTwice
    NewReleaseManager NewReleaseManager_inv rfl "linux" "amd64"
    [((⟨1, 0, 0⟩ : Version), assetSameVerB)] rfl (by decide)

end AutoupdateServer
